import Mathlib

/-!
Verification of the hostel-management agentic BI system against its
specification.  The development shallowly embeds the chart-type inferencer
(`frontend/src/ChartView.jsx`), the client session identifier
(`frontend/src/Chat.jsx`), and the two backend startup scripts
(the container entrypoint and `start.sh`).
-/

namespace HostelBI

/-- A JavaScript value as it occurs in a result-set cell.  JS `null` and
`undefined` behave identically in every operation `ChartView` performs on a
cell (the `val !== null && val !== undefined` guard of `isNumeric`, `?? ""`,
`?? 0`, and property access on a missing key), so both are `JSValue.null`.
Numbers are modelled as integers: the SQL result sets the component renders
hold integer counts and seat numbers. -/
inductive JSValue where
  | null
  | str (s : String)
  | num (n : Int)
deriving DecidableEq, Repr

/-- Value of a non-empty all-digit character list read as a decimal literal. -/
def digitsVal? (cs : List Char) : Option Nat :=
  if cs.isEmpty then none
  else if cs.all Char.isDigit then
    some (cs.foldl (fun a c => a * 10 + (c.toNat - 48)) 0)
  else none

/-- Leading and trailing whitespace stripped from a character list (JS
`Number` ignores surrounding whitespace). -/
def trimChars (cs : List Char) : List Char :=
  ((cs.dropWhile Char.isWhitespace).reverse.dropWhile Char.isWhitespace).reverse

/-- JavaScript `Number(s)` for a string `s`, restricted to the value shapes
occurring in result sets: a whitespace-only string coerces to `0`, a decimal
integer literal (optional sign) to its value, anything else to NaN (`none`). -/
def jsStrToNum? (s : String) : Option Int :=
  match trimChars s.toList with
  | [] => some 0
  | '-' :: cs => (digitsVal? cs).map (fun n => -(n : Int))
  | '+' :: cs => (digitsVal? cs).map (fun n => (n : Int))
  | cs => (digitsVal? cs).map (fun n => (n : Int))

/-- Label extraction `String(v ?? "")` of `ChartView` (lines 83 and
118 use it on the categorical cell). -/
def jsLabel : JSValue → String
  | .null => ""
  | .str s => s
  | .num n => toString n

/-- Value extraction `Number(v ?? 0)` of `ChartView`; `none` is NaN
(a non-numeric string coerces to NaN). -/
def jsCoerce : JSValue → Option Int
  | .null => some 0
  | .str s => jsStrToNum? s
  | .num n => some n

/-- The `isNumeric(val)` helper of `ChartView`:
`val !== null && val !== undefined && !isNaN(Number(val))`. -/
def isNumeric : JSValue → Bool
  | .null => false
  | .str s => (jsStrToNum? s).isSome
  | .num _ => true

/-- A result row: a JS object, i.e. an ordered association list from column
names to cell values. -/
abbrev Row := List (String × JSValue)

/-- Cell access `r[c]`: JS property access; a missing key yields `undefined`
(merged into `JSValue.null`). -/
def getCell (r : Row) (c : String) : JSValue :=
  match r.find? (fun p => p.1 == c) with
  | some p => p.2
  | none => .null

/-- Column names `Object.keys(dataRows[0])`, taken from the first row. -/
def columnsOf (dataRows : List Row) : List String :=
  match dataRows with
  | [] => []
  | r :: _ => r.map Prod.fst

/-- The sampling loop of `ChartView`: how many of the first
`Math.min(dataRows.length, 50)` rows hold a numeric-coercible value in
column `c`. -/
def numericCount (dataRows : List Row) (c : String) : Nat :=
  ((dataRows.take 50).filter (fun r => isNumeric (getCell r c))).length

/-- The threshold `Math.min(5, Math.floor(dataRows.length / 2))`. -/
def candidateThreshold (dataRows : List Row) : Nat :=
  min 5 (dataRows.length / 2)

/-- The classification test of the column loop: column `c` is a numeric
candidate when its sampled numeric count reaches the threshold; otherwise the
loop treats it as a categorical candidate. -/
def isNumCandidate (dataRows : List Row) (c : String) : Bool :=
  candidateThreshold dataRows ≤ numericCount dataRows c

/-- JS truthiness of a `null | string` variable (`catCol`, `numCol`, a stored
session id): `null`, `undefined` and the empty string are falsy. -/
def struthy : Option String → Bool
  | none => false
  | some s => !(s == "")

/-- The column scan of `ChartView` (`for (const c of cols)` with
`if (!numCol) numCol = c` in the numeric branch and `if (!catCol) catCol = c`
otherwise).  The `!` tests are JS truthiness, so an assigned empty-string
name does not stick.  Returns the pair `(numCol, catCol)`. -/
def scanCols (isNum : String → Bool) :
    List String → Option String → Option String → Option String × Option String
  | [], numCol, catCol => (numCol, catCol)
  | c :: rest, numCol, catCol =>
    if isNum c then
      scanCols isNum rest (if struthy numCol then numCol else some c) catCol
    else
      scanCols isNum rest numCol (if struthy catCol then catCol else some c)

/-- Column selection of `ChartView`: the scan followed by the two-column
fallback `if (!catCol && cols.length === 2 && numCol)
catCol = cols.find((c) => c !== numCol)`.  Returns `(numCol, catCol)`. -/
def numCatCols (dataRows : List Row) : Option String × Option String :=
  let cols := columnsOf dataRows
  let scanned := scanCols (isNumCandidate dataRows) cols none none
  if !(struthy scanned.2) && cols.length == 2 && struthy scanned.1 then
    (scanned.1, cols.find? (fun c => some c != scanned.1))
  else
    scanned

/-- The chart a `ChartView` render resolves to.  Values are JS numbers with
`none` for NaN; line-chart labels are the 1-based row indices. -/
inductive Chart where
  | pie (labels : List String) (values : List (Option Int))
  | bar (labels : List String) (values : List (Option Int))
  | line (labels : List Nat) (values : List (Option Int))
deriving DecidableEq, Repr

/-- Chart labels `dataRows.map((r) => String(r[catCol] ?? ""))`. -/
def labelsOf (dataRows : List Row) (c : String) : List String :=
  dataRows.map (fun r => jsLabel (getCell r c))

/-- Chart values `dataRows.map((r) => Number(r[numCol] ?? 0))`. -/
def valuesOf (dataRows : List Row) (c : String) : List (Option Int) :=
  dataRows.map (fun r => jsCoerce (getCell r c))

/-- The chart inference of `ChartView({ dataRows, chartTypeOverride })`:
which chart the component renders (`none` means it renders nothing).
`dataRows? = none` models a null/undefined `dataRows` prop; the function is
total, mirroring that the component never throws on these inputs. -/
def infer (dataRows? : Option (List Row)) (chartTypeOverride : Option String) :
    Option Chart :=
  match dataRows? with
  | none => none
  | some dataRows =>
    if dataRows.isEmpty then none
    else
      let cols := columnsOf dataRows
      let sel := numCatCols dataRows
      if struthy sel.2 && struthy sel.1 then
        let labels := labelsOf dataRows (sel.2.getD "")
        let values := valuesOf dataRows (sel.1.getD "")
        if chartTypeOverride = some "pie" ∨
            (labels.length ≤ 10 ∧ chartTypeOverride ≠ some "bar") then
          some (.pie labels values)
        else
          some (.bar labels values)
      else if !(struthy sel.2) && struthy sel.1 && cols.length == 1 then
        match cols with
        | c0 :: _ =>
          some (.line ((List.range dataRows.length).map (· + 1))
                      (valuesOf dataRows c0))
        | [] => none
      else
        none

/-- Browser `localStorage` for the purposes of `Chat.jsx`: a total map from
keys to the currently stored strings. -/
abbrev LocalStorage := String → Option String

/-- Storage update `localStorage.setItem(k, v)`. -/
def setItem (st : LocalStorage) (k v : String) : LocalStorage :=
  fun q => if q == k then some v else st q

/-- The `getSessionId()` function of `Chat.jsx`, on a client whose storage works (the
`try` block throws nothing).  The `if (!sid)` test is JS truthiness, so a
stored empty string would be regenerated.  The nondeterministically generated
fresh id (`crypto.randomUUID()`, or the `Math.random` fallback) enters as the
parameter `freshId`; the function returns the session id handed to the caller
together with the storage state after the call. -/
def getSessionId (st : LocalStorage) (freshId : String) : String × LocalStorage :=
  let sid := st "agentic_session_id"
  if struthy sid then (sid.getD "", st)
  else (freshId, setItem st "agentic_session_id" freshId)

/-- Repeated calls to `getSessionId`, one call per generated fresh id;
returns the ids the callers see and the final storage state. -/
def sessionIds (st : LocalStorage) : List String → List String × LocalStorage
  | [] => ([], st)
  | f :: fs =>
    let r := getSessionId st f
    let rest := sessionIds r.2 fs
    (r.1 :: rest.1, rest.2)

/-- Observable outcome of running a backend startup script. -/
structure StartupTrace where
  reindexRan : Bool
  logs : List String
  serviceStarted : Bool
deriving DecidableEq, Repr

/-- Shell `"${NAME:-default}"`: an unset or empty variable yields the
default. -/
def envDefault (env : String → Option String) (name dflt : String) : String :=
  match env name with
  | none => dflt
  | some s => if s == "" then dflt else s

/-- The orchestrator container entrypoint script: reindexes the knowledge
base when `"${REINDEX_KB:-true}" = "true"`, guards the reindex call with
`|| echo "reindex failed, continuing..."`, and then `exec "$@"` launches the
main service.  `reindexOk` is the exit status of `reindex_kb.sh`. -/
def entrypointRun (env : String → Option String) (reindexOk : Bool) :
    StartupTrace :=
  if envDefault env "REINDEX_KB" "true" == "true" then
    { reindexRan := true
      logs := ["Reindexing KB..."] ++
        (if reindexOk then [] else ["reindex failed, continuing..."])
      serviceStarted := true }
  else
    { reindexRan := false, logs := [], serviceStarted := true }

/-- Startup script `backend/start.sh` of the memory variant: waits for Qdrant, reindexes
unconditionally (the script consults no environment variable), guards the
reindex call with `|| echo`, then `exec uvicorn` launches the service. -/
def startShRun (_env : String → Option String) (reindexOk : Bool) :
    StartupTrace :=
  { reindexRan := true
    logs := ["Waiting for Qdrant to be ready...", "Reindexing Knowledge Base..."] ++
      (if reindexOk then [] else ["Reindex failed — continuing startup."])
    serviceStarted := true }

/-- Example scenario 1 of the spec:
`[{block:"A",seats:10},{block:"B",seats:5}]`. -/
def blockSeatsRows : List Row :=
  [[("block", JSValue.str "A"), ("seats", JSValue.num 10)],
   [("block", JSValue.str "B"), ("seats", JSValue.num 5)]]

/-- Example scenario 2 of the spec: `[{count:3},{count:7},{count:2}]`. -/
def countRows : List Row :=
  [[("count", JSValue.num 3)], [("count", JSValue.num 7)], [("count", JSValue.num 2)]]

/-- A result set of `n` rows pairing a non-numeric block label with a numeric seat count;
used to exercise the pie/bar boundary at 10 and 11 categories. -/
def seatRows (n : Nat) : List Row :=
  (List.range n).map (fun i =>
    [("block", JSValue.str ("b" ++ toString i)), ("seats", JSValue.num i)])

/-- A categorical/numeric pair with a null in each column. -/
def nullCellRows : List Row :=
  [[("cat", JSValue.null), ("val", JSValue.num 1)],
   [("cat", JSValue.str "B"), ("val", JSValue.null)]]

/-- Two rows in which both columns are numeric-candidates. -/
def twoNumRows : List Row :=
  [[("a", JSValue.num 1), ("b", JSValue.num 2)],
   [("a", JSValue.num 3), ("b", JSValue.num 4)]]


theorem numCatCols_nil : numCatCols ([] : List Row) = (none, none) := rfl

/-- Branch reduction of `infer` when the selection found a truthy categorical
and a truthy numeric column. -/
theorem infer_of_both (rows : List Row) (ov : Option String) (nc cc : String)
    (h : numCatCols rows = (some nc, some cc)) (hn : nc ≠ "") (hc : cc ≠ "") :
    infer (some rows) ov =
      if ov = some "pie" ∨ (rows.length ≤ 10 ∧ ov ≠ some "bar") then
        some (.pie (labelsOf rows cc) (valuesOf rows nc))
      else
        some (.bar (labelsOf rows cc) (valuesOf rows nc)) := by
  have hne : rows.isEmpty = false := by
    cases rows with
    | nil => rw [numCatCols_nil] at h; exact absurd (congrArg Prod.fst h) (by simp)
    | cons r rs => rfl
  have hc2 : (cc == "") = false := beq_eq_false_iff_ne.mpr hc
  have hn2 : (nc == "") = false := beq_eq_false_iff_ne.mpr hn
  simp only [infer, hne, h, struthy]
  simp [hc2, hn2, labelsOf]

theorem columnsOf_ne_nil {rows : List Row} {cs : List String}
    (hcols : columnsOf rows = cs) (hne : cs ≠ []) : rows.isEmpty = false := by
  cases rows with
  | nil => exact absurd hcols.symm (by simpa [columnsOf] using hne)
  | cons r rs => rfl

/-- Column selection over a single column: the scan classifies it, and the
two-column fallback cannot fire. -/
theorem numCatCols_single (rows : List Row) (c : String)
    (hcols : columnsOf rows = [c]) :
    numCatCols rows =
      (if isNumCandidate rows c then ((some c : Option String), (none : Option String))
       else (none, some c)) := by
  by_cases hnum : isNumCandidate rows c <;>
    simp [numCatCols, hcols, scanCols, hnum, struthy]

/-- Branch reduction of `infer` for a single numeric-candidate column with a
truthy name. -/
theorem infer_of_single (rows : List Row) (ov : Option String) (c : String)
    (hcols : columnsOf rows = [c]) (hc : c ≠ "")
    (hnum : isNumCandidate rows c = true) :
    infer (some rows) ov =
      some (.line ((List.range rows.length).map (· + 1)) (valuesOf rows c)) := by
  have hne : rows.isEmpty = false := columnsOf_ne_nil hcols (by simp)
  have hsel : numCatCols rows = (some c, none) := by
    rw [numCatCols_single rows c hcols, if_pos hnum]
  have hc2 : (c == "") = false := beq_eq_false_iff_ne.mpr hc
  simp only [infer, hne, hsel, struthy, hcols]
  simp [hc2]

/-- The override is consulted only through the two comparisons with "pie" and
"bar"; any other override behaves like no override. -/
theorem infer_override_irrel (x : Option (List Row)) (ov : Option String)
    (hp : ov ≠ some "pie") (hb : ov ≠ some "bar") :
    infer x ov = infer x none := by
  cases x with
  | none => rfl
  | some rows =>
    simp only [infer]
    split
    · rfl
    · split
      · exact if_congr (by simp [hp, hb]) rfl rfl
      · rfl

/-- On a single-column result set the pie/bar branch is unreachable, so the
override never matters. -/
theorem infer_single_col_ov (rows : List Row) (c : String) (ov : Option String)
    (hcols : columnsOf rows = [c]) :
    infer (some rows) ov = infer (some rows) none := by
  have hsel := numCatCols_single rows c hcols
  by_cases hnum : isNumCandidate rows c
  · rw [if_pos hnum] at hsel
    simp only [infer, hsel, struthy]
    simp
  · rw [if_neg hnum] at hsel
    simp only [infer, hsel, struthy]
    simp

/-- The scan never assigns `catCol` when every column passes the numeric
test. -/
theorem scanCols_snd_const (isNum : String → Bool) (cs : List String)
    (hall : ∀ c ∈ cs, isNum c = true) (n k : Option String) :
    (scanCols isNum cs n k).2 = k := by
  induction cs generalizing n with
  | nil => rfl
  | cons c rest ih =>
    have hc := hall c (by simp)
    simp only [scanCols, hc, if_true]
    exact ih (fun d hd => hall d (by simp [hd])) _

/-- Under nonempty column names the scan is first-match: each accumulator
keeps a truthy assignment and otherwise takes the first matching column. -/
theorem scanCols_eq_or (isNum : String → Bool) (cs : List String)
    (hcs : ∀ c ∈ cs, c ≠ "") (n k : Option String) :
    scanCols isNum cs n k =
      ((if struthy n then n else (cs.find? isNum).or n),
       (if struthy k then k else (cs.find? (fun c => !(isNum c))).or k)) := by
  induction cs generalizing n k with
  | nil => simp [scanCols]
  | cons c rest ih =>
    have hc : c ≠ "" := hcs c (by simp)
    have hrest : ∀ d ∈ rest, d ≠ "" := fun d hd => hcs d (by simp [hd])
    have hstc : struthy (some c) = true := by simp [struthy, hc]
    by_cases hnum : isNum c
    · have hfind1 : (c :: rest).find? isNum = some c := List.find?_cons_of_pos _ hnum
      have hfind2 : (c :: rest).find? (fun d => !(isNum d)) = rest.find? (fun d => !(isNum d)) :=
        List.find?_cons_of_neg _ (by simp [hnum])
      simp only [scanCols, hnum, if_true]
      rw [ih hrest, hfind1, hfind2]
      by_cases hn : struthy n
      · simp [hn]
      · simp [hn, hstc]
    · have hnum2 : isNum c = false := by simp [hnum]
      have hfind1 : (c :: rest).find? isNum = rest.find? isNum :=
        List.find?_cons_of_neg _ hnum
      have hfind2 : (c :: rest).find? (fun d => !(isNum d)) = some c :=
        List.find?_cons_of_pos _ (by simp [hnum2])
      simp only [scanCols, hnum2, Bool.false_eq_true, if_false]
      rw [ih hrest, hfind1, hfind2]
      by_cases hk : struthy k
      · simp [hk]
      · simp [hk, hstc]

theorem numCatCols_fst_scan (rows : List Row) :
    (numCatCols rows).1 =
      (scanCols (isNumCandidate rows) (columnsOf rows) none none).1 := by
  simp only [numCatCols]
  split <;> rfl

/-- Under nonempty column names `numCol` is the first numeric-candidate
column. -/
theorem numCatCols_fst_find (rows : List Row)
    (hcs : ∀ c ∈ columnsOf rows, c ≠ "") :
    (numCatCols rows).1 = (columnsOf rows).find? (isNumCandidate rows) := by
  rw [numCatCols_fst_scan, scanCols_eq_or (isNumCandidate rows) _ hcs]
  simp [struthy]

/-- Under nonempty column names, when some categorical candidate exists,
`catCol` is the first one (the fallback does not fire). -/
theorem numCatCols_snd_find (rows : List Row)
    (hcs : ∀ c ∈ columnsOf rows, c ≠ "") (c : String)
    (hfind : (columnsOf rows).find? (fun d => !(isNumCandidate rows d)) = some c) :
    (numCatCols rows).2 = some c := by
  have h := scanCols_eq_or (isNumCandidate rows) (columnsOf rows) hcs none none
  have hc : c ≠ "" := hcs c (List.mem_of_find?_eq_some hfind)
  simp only [numCatCols]
  rw [h]
  simp [hfind, struthy, hc]

/-- A truthy stored session id is returned unchanged with the storage
untouched. -/
theorem getSessionId_stored (st : LocalStorage) (f sid : String)
    (h : st "agentic_session_id" = some sid) (hs : sid ≠ "") :
    getSessionId st f = (sid, st) := by
  simp [getSessionId, h, struthy, hs]

/-- After one call with a nonempty fresh id, `getSessionId` is a fixpoint:
any later call returns the same id and leaves storage unchanged. -/
theorem getSessionId_fixpoint (st : LocalStorage) (f g : String) (hf : f ≠ "") :
    getSessionId (getSessionId st f).2 g =
      ((getSessionId st f).1, (getSessionId st f).2) := by
  rcases hst : st "agentic_session_id" with _ | sid
  · have h1 : getSessionId st f = (f, setItem st "agentic_session_id" f) := by
      simp [getSessionId, hst, struthy]
    rw [h1]
    exact getSessionId_stored _ g f (by simp [setItem]) hf
  · by_cases hsid : sid = ""
    · subst hsid
      have h1 : getSessionId st f = (f, setItem st "agentic_session_id" f) := by
        simp [getSessionId, hst, struthy]
      rw [h1]
      exact getSessionId_stored _ g f (by simp [setItem]) hf
    · rw [getSessionId_stored st f sid hst hsid]
      exact getSessionId_stored st g sid hst hsid

/-- With one row the sampling threshold is `min 5 (1 / 2) = 0`, so the
numeric test is vacuous. -/
theorem isNumCandidate_single_row (r : Row) (c : String) :
    isNumCandidate [r] c = true := by
  simp [isNumCandidate, candidateThreshold]

/-- C1: whenever the column selection finds both a categorical column and a
numeric column, `infer` returns a pie chart exactly when the explicit
override is "pie", or the category count (the rendered labels, one per row)
is at most 10 and the override is not "bar"; otherwise it returns a bar
chart.  In particular `[{block:"A",seats:10},{block:"B",seats:5}]` yields a
pie chart with categories ["A","B"] and values [10,5]; absent any override a
10-category result yields a pie chart and an 11-category result a bar
chart. -/
theorem pie_bar_decision :
    (∀ (rows : List Row) (ov : Option String) (nc cc : String),
        numCatCols rows = (some nc, some cc) → nc ≠ "" → cc ≠ "" →
        infer (some rows) ov =
          if ov = some "pie" ∨ (rows.length ≤ 10 ∧ ov ≠ some "bar") then
            some (.pie (labelsOf rows cc) (valuesOf rows nc))
          else
            some (.bar (labelsOf rows cc) (valuesOf rows nc))) ∧
    infer (some blockSeatsRows) none = some (.pie ["A", "B"] [some 10, some 5]) ∧
    infer (some (seatRows 10)) none =
      some (.pie (labelsOf (seatRows 10) "block") (valuesOf (seatRows 10) "seats")) ∧
    infer (some (seatRows 11)) none =
      some (.bar (labelsOf (seatRows 11) "block") (valuesOf (seatRows 11) "seats")) :=
  ⟨infer_of_both, by decide, by decide, by decide⟩

/-- Witness for C1: on the concrete block/seats rows with override "bar",
the selection hypotheses hold and the decision yields the bar chart. -/
theorem pie_bar_decision_witness :
    infer (some blockSeatsRows) (some "bar") =
      some (.bar (labelsOf blockSeatsRows "block") (valuesOf blockSeatsRows "seats")) := by
  have h := pie_bar_decision.1 blockSeatsRows (some "bar") "seats" "block"
    (by decide) (by decide) (by decide)
  rw [h, if_neg (by simp)]

/-- C2 counterexample: in the one-row result set `[{"": 1, "x": 2}]` every
column is numeric-candidate and the first numeric-candidate column in
original order is `""`, yet the selection produces `numCol = "x"`: the
JS-falsy empty-string name assigned first in the loop is overwritten by the
later candidate, so the selection is not first-match as claimed. -/
theorem first_match_counterexample :
    (columnsOf [[("", JSValue.num 1), ("x", JSValue.num 2)]]).find?
        (isNumCandidate [[("", JSValue.num 1), ("x", JSValue.num 2)]]) = some "" ∧
    (numCatCols [[("", JSValue.num 1), ("x", JSValue.num 2)]]).1 = some "x" ∧
    (some "x" : Option String) ≠ some "" := by decide

/-- C2 (amended): for a non-empty result set all of whose column names are
nonempty, a column is numeric-candidate iff at least
`min(5, floor(rowCount/2))` of its first `min(rowCount, 50)` sampled values
are numeric-coercible (and categorical-candidate otherwise); `numCol` is the
first numeric-candidate column in original order, and whenever a
categorical-candidate column exists, `catCol` is the first one in original
order (first-match, not best-match). -/
theorem first_match_selection (rows : List Row) (_hne : rows ≠ [])
    (hcs : ∀ c ∈ columnsOf rows, c ≠ "") :
    (∀ c, isNumCandidate rows c = true ↔
        min 5 (rows.length / 2) ≤
          ((rows.take 50).filter (fun r => isNumeric (getCell r c))).length) ∧
    (numCatCols rows).1 = (columnsOf rows).find? (isNumCandidate rows) ∧
    (∀ c, (columnsOf rows).find? (fun d => !(isNumCandidate rows d)) = some c →
        (numCatCols rows).2 = some c) :=
  ⟨fun c => by simp [isNumCandidate, candidateThreshold, numericCount],
   numCatCols_fst_find rows hcs,
   fun c h => numCatCols_snd_find rows hcs c h⟩

/-- Witness for the amended C2 on the concrete block/seats rows. -/
theorem first_match_selection_witness :
    (numCatCols blockSeatsRows).1 =
      (columnsOf blockSeatsRows).find? (isNumCandidate blockSeatsRows) :=
  (first_match_selection blockSeatsRows (by decide) (by decide)).2.1

/-- C3 counterexample: the one-row result set `[{"": 3}]` has exactly one
column, that column is numeric-candidate and no categorical-candidate column
exists, yet `infer` yields no chart at all — the empty-string column name is
JS-falsy, so the line-chart branch is not taken. -/
theorem single_numeric_empty_name_no_line :
    columnsOf [[("", JSValue.num 3)]] = [""] ∧
    isNumCandidate [[("", JSValue.num 3)]] "" = true ∧
    (columnsOf [[("", JSValue.num 3)]]).find?
      (fun d => !(isNumCandidate [[("", JSValue.num 3)]] d)) = none ∧
    (numCatCols [[("", JSValue.num 3)]]).2 = none ∧
    infer (some [[("", JSValue.num 3)]]) none = none := by decide

/-- C3 (amended): for a result set with exactly one column whose name is
nonempty, where that column is numeric-candidate (hence no
categorical-candidate column exists), `infer` returns a line chart whose x
values are the 1-based row indices 1..N in row order and whose y values are
the column's values in row order; in particular
`[{count:3},{count:7},{count:2}]` yields x = [1,2,3] and y = [3,7,2]. -/
theorem single_numeric_line :
    (∀ (rows : List Row) (ov : Option String) (c : String),
        columnsOf rows = [c] → c ≠ "" → isNumCandidate rows c = true →
        infer (some rows) ov =
          some (.line ((List.range rows.length).map (· + 1)) (valuesOf rows c))) ∧
    infer (some countRows) none = some (.line [1, 2, 3] [some 3, some 7, some 2]) :=
  ⟨infer_of_single, by decide⟩

/-- Witness for the amended C3 on the concrete count rows. -/
theorem single_numeric_line_witness :
    infer (some countRows) none =
      some (.line ((List.range countRows.length).map (· + 1)) (valuesOf countRows "count")) :=
  single_numeric_line.1 countRows none "count" (by decide) (by decide) (by decide)

/-- C4: a null/undefined row set and the empty row set both make `infer`
return no chart through its no-chart branch; the embedding is a total
function, so no exception is raised on these inputs. -/
theorem empty_rows_no_chart :
    (∀ ov : Option String, infer none ov = none) ∧
    (∀ ov : Option String, infer (some []) ov = none) :=
  ⟨fun _ => rfl, fun _ => rfl⟩

/-- C5: whenever the column selection finds both columns — so `infer`
produces a pie or bar chart for every override — a null (or undefined)
categorical cell is labelled by the empty string, and a null (or undefined)
numeric cell contributes the value 0, position by position. -/
theorem null_cell_handling (rows : List Row) (ov : Option String) (nc cc : String)
    (h : numCatCols rows = (some nc, some cc)) (hn : nc ≠ "") (hc : cc ≠ "") :
    (infer (some rows) ov = some (.pie (labelsOf rows cc) (valuesOf rows nc)) ∨
     infer (some rows) ov = some (.bar (labelsOf rows cc) (valuesOf rows nc))) ∧
    (∀ (i : Nat) (r : Row), rows[i]? = some r →
      (getCell r cc = JSValue.null → (labelsOf rows cc)[i]? = some "") ∧
      (getCell r nc = JSValue.null → (valuesOf rows nc)[i]? = some (some 0))) := by
  constructor
  · rw [infer_of_both rows ov nc cc h hn hc]
    by_cases hcond : ov = some "pie" ∨ (rows.length ≤ 10 ∧ ov ≠ some "bar")
    · exact Or.inl (by rw [if_pos hcond])
    · exact Or.inr (by rw [if_neg hcond])
  · intro i r hir
    constructor
    · intro hnull
      simp [labelsOf, List.getElem?_map, hir, hnull, jsLabel]
    · intro hnull
      simp [valuesOf, List.getElem?_map, hir, hnull, jsCoerce]

/-- Witness for C5: rows with a null in each column; the null categorical
cell labels as "" and the null numeric cell contributes 0. -/
theorem null_cell_handling_witness :
    (infer (some nullCellRows) none =
        some (.pie (labelsOf nullCellRows "cat") (valuesOf nullCellRows "val")) ∨
     infer (some nullCellRows) none =
        some (.bar (labelsOf nullCellRows "cat") (valuesOf nullCellRows "val"))) ∧
    (labelsOf nullCellRows "cat")[0]? = some "" ∧
    (valuesOf nullCellRows "val")[1]? = some (some 0) := by
  have h := null_cell_handling nullCellRows none "val" "cat"
    (by decide) (by decide) (by decide)
  exact ⟨h.1,
    (h.2 0 [("cat", JSValue.null), ("val", JSValue.num 1)] (by decide)).1 (by decide),
    (h.2 1 [("cat", JSValue.str "B"), ("val", JSValue.null)] (by decide)).2 (by decide)⟩

/-- C6: with exactly two (distinct, nonempty-named) columns that are both
numeric-candidates — a numeric column found, no categorical-candidate column —
the fallback makes the remaining column the categorical one even though it
did not classify as categorical-candidate, and `infer` charts it as the
category axis. -/
theorem two_column_fallback (rows : List Row) (c1 c2 : String)
    (hcols : columnsOf rows = [c1, c2]) (h1 : c1 ≠ "") (h2 : c2 ≠ "")
    (hdist : c1 ≠ c2)
    (hn1 : isNumCandidate rows c1 = true) (hn2 : isNumCandidate rows c2 = true) :
    numCatCols rows = (some c1, some c2) ∧
    infer (some rows) none =
      if rows.length ≤ 10 then
        some (.pie (labelsOf rows c2) (valuesOf rows c1))
      else
        some (.bar (labelsOf rows c2) (valuesOf rows c1)) := by
  have h12 : (c1 == "") = false := beq_eq_false_iff_ne.mpr h1
  have hd : (c2 == c1) = false := beq_eq_false_iff_ne.mpr (Ne.symm hdist)
  have hbne : (some c2 != some c1) = true :=
    bne_iff_ne.mpr (by simpa using Ne.symm hdist)
  have hsel : numCatCols rows = (some c1, some c2) := by
    simp [numCatCols, hcols, scanCols, hn1, hn2, struthy, h12, List.find?, hd, hbne]
  refine ⟨hsel, ?_⟩
  rw [infer_of_both rows none c1 c2 hsel h1 h2]
  simp

/-- Witness for C6: two all-numeric columns; the second becomes the
categorical column through the fallback. -/
theorem two_column_fallback_witness :
    numCatCols twoNumRows = (some "a", some "b") :=
  (two_column_fallback twoNumRows "a" "b" (by decide) (by decide) (by decide)
    (by decide) (by decide) (by decide)).1

/-- C7: the session identifier is stable.  A truthy persisted id is returned
unchanged with the storage untouched; with no persisted id the fresh id is
persisted and returned; and after the first call every subsequent call (for
any sequence of later fresh ids) returns the same token and leaves the
storage unchanged.  The generated fresh ids are nonempty (a UUID or a
`sid-`-prefixed string). -/
theorem session_id_stable (st : LocalStorage) (f : String) (hf : f ≠ "") :
    (∀ sid, st "agentic_session_id" = some sid → sid ≠ "" →
        getSessionId st f = (sid, st)) ∧
    (st "agentic_session_id" = none →
        getSessionId st f = (f, setItem st "agentic_session_id" f)) ∧
    (∀ fs : List String,
        (sessionIds (getSessionId st f).2 fs).1 =
          List.replicate fs.length (getSessionId st f).1 ∧
        (sessionIds (getSessionId st f).2 fs).2 = (getSessionId st f).2) := by
  refine ⟨fun sid h hs => getSessionId_stored st f sid h hs,
          fun h => by simp [getSessionId, h, struthy],
          fun fs => ?_⟩
  induction fs with
  | nil => simp [sessionIds]
  | cons g gs ih =>
    simp only [sessionIds, getSessionId_fixpoint st f g hf]
    simp [ih.1, ih.2, List.replicate_succ]

/-- Witness for C7: a client with a stored id gets it back unchanged, and a
client with empty storage sees the first fresh id on every later call. -/
theorem session_id_stable_witness :
    getSessionId (fun _ => some "abc") "f1" = ("abc", fun _ => some "abc") ∧
    (sessionIds (getSessionId (fun _ => none) "f1").2 ["f2", "f3"]).1 = ["f1", "f1"] := by
  have h1 := session_id_stable (fun _ => some "abc") "f1" (by decide)
  have h2 := session_id_stable (fun _ => none) "f1" (by decide)
  refine ⟨h1.1 "abc" rfl (by decide), ?_⟩
  rw [(h2.2.2 ["f2", "f3"]).1]
  rfl

/-- C8 counterexample: the memory variant's `start.sh` reindexes the
knowledge base even when `REINDEX_KB` is set to "false" — that startup
script consults no environment toggle, so the reindex job does not run "only
when REINDEX_KB equals true". -/
theorem reindex_toggle_counterexample :
    (startShRun (fun k => if k == "REINDEX_KB" then some "false" else none) true).reindexRan = true ∧
    envDefault (fun k => if k == "REINDEX_KB" then some "false" else none)
        "REINDEX_KB" "true" ≠ "true" :=
  ⟨rfl, by decide⟩

/-- C8 (amended): the orchestrator entrypoint runs the reindex job exactly
when `REINDEX_KB` (default "true", with an empty value treated as unset)
equals "true", while the memory variant's `start.sh` reindexes
unconditionally; under both scripts a reindex failure is logged and ignored —
startup continues and the main service process is launched. -/
theorem reindex_startup (env : String → Option String) (ok : Bool) :
    ((entrypointRun env ok).reindexRan = (envDefault env "REINDEX_KB" "true" == "true")) ∧
    (entrypointRun env ok).serviceStarted = true ∧
    (ok = false → (entrypointRun env ok).reindexRan = true →
        "reindex failed, continuing..." ∈ (entrypointRun env ok).logs) ∧
    (startShRun env ok).reindexRan = true ∧
    (startShRun env ok).serviceStarted = true ∧
    (ok = false → "Reindex failed — continuing startup." ∈ (startShRun env ok).logs) := by
  by_cases h : envDefault env "REINDEX_KB" "true" = "true" <;>
    cases ok <;>
    simp [entrypointRun, startShRun, h]

/-- Witness for the amended C8: with an empty environment and a failing
reindex job, both scripts log the failure and still start the service. -/
theorem reindex_startup_witness :
    (entrypointRun (fun _ => none) false).reindexRan = true ∧
    "reindex failed, continuing..." ∈ (entrypointRun (fun _ => none) false).logs ∧
    "Reindex failed — continuing startup." ∈ (startShRun (fun _ => none) false).logs := by
  have h := reindex_startup (fun _ => none) false
  have hr : (entrypointRun (fun _ => none) false).reindexRan = true := by
    rw [h.1]; decide
  exact ⟨hr, h.2.2.1 rfl hr, h.2.2.2.2.2 rfl⟩

/-- C9 counterexample: the one-row, one-column result set `[{"": "x"}]` — the
column numeric-candidate like every single-row column — produces no chart at
all rather than a line chart: the empty-string column name is JS-falsy. -/
theorem single_row_counterexample :
    columnsOf [[("", JSValue.str "x")]] = [""] ∧
    isNumCandidate [[("", JSValue.str "x")]] "" = true ∧
    infer (some [[("", JSValue.str "x")]]) none = none := by decide

/-- C9 (amended): for single-row result sets the threshold
`min(5, floor(1/2))` is 0, so every column — whatever its value — classifies
as numeric-candidate and none as categorical-candidate; a one-row,
one-column result set with a nonempty column name yields a line chart
regardless of the value's type (a non-numeric text value is plotted as NaN),
and a categorical column can arise for one row only through the two-column
fallback. -/
theorem single_row_classification :
    (∀ r : Row, candidateThreshold [r] = 0) ∧
    (∀ (r : Row) (c : String), isNumCandidate [r] c = true) ∧
    (∀ r : Row, (columnsOf [r]).find? (fun c => !(isNumCandidate [r] c)) = none) ∧
    (∀ (c : String) (v : JSValue) (ov : Option String), c ≠ "" →
        infer (some [[(c, v)]]) ov = some (.line [1] [jsCoerce v])) ∧
    infer (some [[("name", JSValue.str "Alice")]]) none = some (.line [1] [none]) ∧
    (∀ r : Row, (numCatCols [r]).2 ≠ none → (columnsOf [r]).length = 2) := by
  refine ⟨fun r => by simp [candidateThreshold],
          isNumCandidate_single_row,
          fun r => List.find?_eq_none.mpr (fun c _ => by simp [isNumCandidate_single_row]),
          fun c v ov hc => ?_, by decide, fun r h => ?_⟩
  · have h := infer_of_single [[(c, v)]] ov c (by simp [columnsOf]) hc
      (isNumCandidate_single_row _ c)
    rw [h]
    simp [valuesOf, getCell, List.find?, List.range, List.range.loop]
  · have hsc : (scanCols (isNumCandidate [r]) (columnsOf [r]) none none).2 = none :=
      scanCols_snd_const _ _ (fun c _ => isNumCandidate_single_row r c) none none
    simp only [numCatCols] at h
    split at h
    case isTrue hcond =>
      have h1 := (Bool.and_eq_true _ _).mp hcond
      have hlen := ((Bool.and_eq_true _ _).mp h1.1).2
      exact Nat.eq_of_beq_eq_true (by simpa using hlen)
    case isFalse hcond => exact absurd hsc h

/-- Witness for the amended C9: a one-row, one-column result set holding a
text value still draws a line chart (its value plotted as NaN). -/
theorem single_row_classification_witness :
    infer (some [[("city", JSValue.str "Udupi")]]) none =
      some (.line [1] [jsCoerce (JSValue.str "Udupi")]) :=
  single_row_classification.2.2.2.1 "city" (JSValue.str "Udupi") none (by decide)

/-- C10: the chart-type override only chooses between pie and bar.  An
override of "line" behaves exactly like no override on every input; with
both columns found it yields a pie chart at up to 10 categories and a bar
chart above; on a single-column result set the override (any value,
including "bar" and "pie") never changes the outcome, and under the
line-chart conditions the line chart still appears. -/
theorem override_scope :
    (∀ x : Option (List Row), infer x (some "line") = infer x none) ∧
    (∀ (rows : List Row) (nc cc : String),
        numCatCols rows = (some nc, some cc) → nc ≠ "" → cc ≠ "" →
        infer (some rows) (some "line") =
          if rows.length ≤ 10 then some (.pie (labelsOf rows cc) (valuesOf rows nc))
          else some (.bar (labelsOf rows cc) (valuesOf rows nc))) ∧
    (∀ (rows : List Row) (c : String) (ov : Option String),
        columnsOf rows = [c] → infer (some rows) ov = infer (some rows) none) ∧
    (∀ (rows : List Row) (c : String) (ov : Option String),
        columnsOf rows = [c] → c ≠ "" → isNumCandidate rows c = true →
        infer (some rows) ov =
          some (.line ((List.range rows.length).map (· + 1)) (valuesOf rows c))) := by
  refine ⟨fun x => infer_override_irrel x (some "line") (by simp) (by simp),
          fun rows nc cc h hn hc => ?_,
          fun rows c ov hcols => infer_single_col_ov rows c ov hcols,
          fun rows c ov hcols hc hnum => infer_of_single rows ov c hcols hc hnum⟩
  rw [infer_of_both rows (some "line") nc cc h hn hc]
  simp

/-- Witness for C10: on 11 block/seats rows an override of "line" still
yields the bar chart. -/
theorem override_scope_witness :
    infer (some (seatRows 11)) (some "line") =
      some (.bar (labelsOf (seatRows 11) "block") (valuesOf (seatRows 11) "seats")) := by
  have h := override_scope.2.1 (seatRows 11) "seats" "block"
    (by decide) (by decide) (by decide)
  rw [h, if_neg (by decide)]

end HostelBI
